import Mathlib

/-!
Shallow embedding of the content-moderation pipeline of the `bord` wasm-filter
component (`src/wasm-filter/src/{tokenizer.rs, tract_model.rs, lib.rs}`).

Sentiment scores and thresholds are embedded as exact rationals (`ℚ`);
machine doubles are modelled by exact arithmetic, and `0.3` / `0.5` are
written `mkRat 3 10` / `mkRat 1 2`.  The f32 sigmoid scorer of
tract_model.rs is deliberately not embedded: in IEEE binary32 the sum
`1.0 + (-x).exp()` rounds to 1.0 for large positive logit differences and
`exp` overflows to infinity for large negative ones, so the value of the
scorer saturates to exactly 1.0 and 0.0 — a rounding behaviour that exact
arithmetic cannot represent; scores enter the policy layer here as the
abstract result of the model run.  Rust string operations (`to_lowercase`,
`trim`, `split`,
`contains`, `starts_with`) are embedded as executable functions on the
character list of a `String` (lower-casing is per character, the ASCII
fragment of the Rust behaviour).  Fallible code returns `Except String _`
exactly where the Rust code returns `anyhow::Result`.  The outcome of the
external effects (the ONNX model run, the remote LLM call, the JSON parse of
the request body, the process environment) is passed in as an explicit
parameter, so every function is a pure function of the code path it embeds.
-/

/-! ### Rust string primitives -/

/-- Embeds Rust `to_lowercase` on a string: lower-case every character. -/
def rustToLowerChars (l : List Char) : List Char :=
  l.map Char.toLower

/-- Embeds Rust `str::trim`: drop whitespace from both ends. -/
def rustTrimChars (l : List Char) : List Char :=
  ((l.dropWhile Char.isWhitespace).reverse.dropWhile Char.isWhitespace).reverse

/-- Embeds Rust `split(sep)`: cut the character list at every separator,
keeping empty pieces, so the empty input yields one empty piece. -/
def splitOnChar (sep : Char) : List Char → List (List Char)
  | [] => [[]]
  | c :: rest =>
    let r := splitOnChar sep rest
    if c == sep then [] :: r
    else
      match r with
      | h :: t => (c :: h) :: t
      | [] => [[c]]

/-- Embeds Rust `hay.contains(&needle)`: `needle` occurs as a contiguous
substring of `hay`. -/
def rustContains (hay needle : List Char) : Bool :=
  decide (needle <:+: hay)

/-- Embeds Rust `s.starts_with(pre)`. -/
def rustStartsWith (s pre : String) : Bool :=
  decide (pre.data <+: s.data)

/-! ### tokenizer.rs -/

/-- Embeds `is_punctuation` (tokenizer.rs): the nine ASCII punctuation
characters recognised by the tokenizer.  `Char.ofNat 34` is the double quote
and `Char.ofNat 39` the single quote. -/
def is_punctuation (ch : Char) : Bool :=
  ch == ',' || ch == '.' || ch == '!' || ch == '?' || ch == ';' ||
  ch == ':' || ch == Char.ofNat 34 || ch == Char.ofNat 39 || ch == '-'

/-- Embeds `struct Tokenizer` (tokenizer.rs): the vocabulary is a finite
map from token text to id; the `HashMap<String, i64>` is embedded as an
association list queried by `find?`. -/
structure Tokenizer where
  vocab : List (String × Int)

/-- Embeds `self.vocab.get(token)` on the tokenizer vocabulary map. -/
def Tokenizer.get (t : Tokenizer) (token : String) : Option Int :=
  (t.vocab.find? (fun p => p.1 == token)).map (fun p => p.2)

/-- Embeds `Tokenizer::get_token_id` (tokenizer.rs): exact match, then the
subword form with a leading `#`, then the `[UNK]` id, defaulting to 100. -/
def Tokenizer.get_token_id (t : Tokenizer) (token : String) : Int :=
  match t.get token with
  | some id => id
  | none =>
    match t.get ("#" ++ token) with
    | some id => id
    | none => (t.get "[UNK]").getD 100

/-- Embeds the character scan in `Tokenizer::tokenize`: walk the lower-cased
text, flushing the accumulated current word at whitespace or punctuation and
emitting punctuation characters as their own single-character tokens. -/
def Tokenizer.scan (t : Tokenizer) :
    List Char → List Int → List Char → List Int × List Char
  | [], tokens, cur => (tokens, cur)
  | ch :: rest, tokens, cur =>
    if ch.isWhitespace || is_punctuation ch then
      let tokens := if cur.isEmpty then tokens else tokens ++ [t.get_token_id ⟨cur⟩]
      let tokens :=
        if is_punctuation ch then tokens ++ [t.get_token_id ⟨[ch]⟩]
        else tokens
      Tokenizer.scan t rest tokens []
    else
      Tokenizer.scan t rest tokens (cur ++ [ch])

/-- Embeds the token list built by `Tokenizer::tokenize` before the padding
loop: optional `[CLS]`, the scanned body of the lower-cased text, the final
flush of the pending word, optional `[SEP]`. -/
def Tokenizer.rawTokens (t : Tokenizer) (text : String) : List Int :=
  let cls : List Int :=
    match t.get "[CLS]" with
    | some id => [id]
    | none => []
  let scanned := Tokenizer.scan t (rustToLowerChars text.data) cls []
  let tokens := scanned.1
  let cur := scanned.2
  let tokens := if cur.isEmpty then tokens else tokens ++ [t.get_token_id ⟨cur⟩]
  match t.get "[SEP]" with
  | some id => tokens ++ [id]
  | none => tokens

/-- Embeds the pad id used by the padding loop of `Tokenizer::tokenize`: the
`[PAD]` entry of the vocabulary, or 0 when it is absent. -/
def Tokenizer.padId (t : Tokenizer) : Int :=
  (t.get "[PAD]").getD 0

/-- Embeds `Tokenizer::tokenize` (tokenizer.rs): build the raw token list,
right-pad with the pad id while shorter than 128, then truncate to 128. -/
def Tokenizer.tokenize (t : Tokenizer) (text : String) : List Int :=
  let raw := t.rawTokens text
  (raw ++ List.replicate (128 - raw.length) t.padId).take 128

/-! ### tract_model.rs -/

/-- Embeds the attention-mask construction in `classify_sentiment`
(tract_model.rs): 1 for every token id other than the literal 0, 0 for the
literal id 0. -/
def attention_mask (token_ids : List Int) : List Int :=
  token_ids.map (fun id => if id = 0 then 0 else 1)

/-- Embeds the per-process mutable state touched by the local inference
path: the `VOCAB` once-cell of tokenizer.rs, plus an instrumentation counter
recording how many times the embedded ONNX graph has been parsed
(`model_for_read` + `into_runnable`). -/
structure ProcessState where
  vocabCache : Option Tokenizer
  parseCount : Nat

/-- Embeds `Tokenizer::load` (tokenizer.rs): return the cached tokenizer if
the `VOCAB` once-cell is set, otherwise build it from the vocabulary
resource and store it. -/
def Tokenizer.load (fromResource : Tokenizer) (s : ProcessState) :
    Tokenizer × ProcessState :=
  match s.vocabCache with
  | some t => (t, s)
  | none => (fromResource, { s with vocabCache := some fromResource })

/-- Embeds the control flow of `classify_sentiment` (tract_model.rs) as a
state-passing function.  `runModel` abstracts the tract execution of the
parsed graph on the two (1, 128) tensors, returning the sentiment score or an
inference error.  The graph parse (`model_for_read` + `into_runnable`) sits
in the body of the function and runs unconditionally on every call — the
code consults no cache for it — which the instrumentation counter records. -/
def classify_sentiment (fromResource : Tokenizer)
    (runModel : List Int → List Int → Except String ℚ)
    (text : String) (s : ProcessState) : Except String ℚ × ProcessState :=
  match Tokenizer.load fromResource s with
  | (tokenizer, s) =>
    let token_ids := tokenizer.tokenize text
    let mask := attention_mask token_ids
    let s := { s with parseCount := s.parseCount + 1 }
    (runModel token_ids mask, s)

/-! ### lib.rs -/

/-- Embeds `struct PolicyConfig` (lib.rs). -/
structure PolicyConfig where
  sentiment_score_threshold : ℚ

/-- Embeds `struct LlmConfig` (lib.rs). -/
structure LlmConfig where
  address : String
  model : String
  temperature : ℚ

/-- Embeds `struct PromptConfig` (lib.rs). -/
structure PromptConfig where
  sentiment_analysis : String

/-- Embeds `struct Config` (lib.rs), the process-wide configuration loaded
once from the embedded `config.toml`. -/
structure Config where
  enable_llm : Bool
  enable_tract : Bool
  llm : LlmConfig
  llm_prompt : PromptConfig
  policy : PolicyConfig

/-- Embeds `struct ContentClassification` (lib.rs). -/
structure ContentClassification where
  sentiment_score : ℚ
  is_hate_speech : Bool
  reasoning : String
deriving DecidableEq, Repr

/-- Embeds `struct LlmClassification` (lib.rs): the JSON shape the remote
LLM is expected to answer with. -/
structure LlmClassification where
  sentiment_score : ℚ
  has_hate_speech : Bool
  reason : String

/-- Embeds the possible outcomes of the remote LLM exchange in
`classify_with_llm` (lib.rs), read off the nesting of its `match` and
`if let` chain: the HTTP send fails; the response body is not an
`LlmResponse`; the inner `response` string is not an `LlmClassification`;
or a classification is obtained. -/
inductive LlmOutcome where
  | sendFailed (err : String)
  | badResponse (body : String)
  | badClassification (response : String)
  | classified (c : LlmClassification)

/-- Embeds the result of `classify_with_llm` (lib.rs) as a function of the
exchange outcome: a parsed classification is passed through; a response that
cannot be parsed is an error; a failed HTTP send degrades to the neutral
allow-classification `(0.5, false, "llm_unavailable")`. -/
def classify_with_llm (outcome : LlmOutcome) : Except String ContentClassification :=
  match outcome with
  | .classified c =>
    .ok { sentiment_score := c.sentiment_score
          is_hate_speech := c.has_hate_speech
          reasoning := c.reason }
  | .badClassification _ => .error "Failed to parse JSON from LLM response"
  | .badResponse _ => .error "Failed to parse LLM response"
  | .sendFailed _ =>
    .ok { sentiment_score := mkRat 1 2
          is_hate_speech := false
          reasoning := "llm_unavailable" }

/-- Embeds `classify_with_tract` (lib.rs) as a function of the result of
`tract_model::classify_sentiment`: on success the hate flag is the fixed
comparison `sentiment_score < 0.3`; on failure the neutral
allow-classification `(0.5, false, "tract_error")` is returned.  Both arms
return `Ok`. -/
def classify_with_tract (inference : Except String ℚ) :
    Except String ContentClassification :=
  match inference with
  | .ok sentiment_score =>
    .ok { sentiment_score := sentiment_score
          is_hate_speech := decide (sentiment_score < mkRat 3 10)
          reasoning := "tract_inference" }
  | .error _ =>
    .ok { sentiment_score := mkRat 1 2
          is_hate_speech := false
          reasoning := "tract_error" }

/-- Embeds the fixed block message of the forbidden-word gate (lib.rs);
`\x27` is the apostrophe. -/
def spamMessage : String := "Spam detected - this content won\x27t be posted."

/-- Embeds the loop of `contains_forbidden_content` (lib.rs): walk the
comma-separated entries in order; the first entry that is non-empty after
trimming and lower-casing and occurs in the lower-cased content produces the
fixed spam message. -/
def findForbidden (content : String) : List String → Option String
  | [] => none
  | w :: rest =>
    let word := rustToLowerChars (rustTrimChars w.data)
    if !word.isEmpty && rustContains (rustToLowerChars content.data) word then
      some spamMessage
    else
      findForbidden content rest

/-- Embeds `contains_forbidden_content` (lib.rs): when the `FORBIDDEN_WORDS`
environment variable is absent the gate is disabled; otherwise its value is
split on commas and scanned by `findForbidden`. -/
def contains_forbidden_content (forbidden_words : Option String)
    (content : String) : Option String :=
  match forbidden_words with
  | none => none
  | some words =>
    findForbidden content ((splitOnChar ',' words.data).map String.mk)

/-- A JSON value, as produced by the serde parse of the request body. -/
inductive Json where
  | null
  | bool (b : Bool)
  | num (q : ℚ)
  | str (s : String)
  | arr (elems : List Json)
  | obj (fields : List (String × Json))

/-- Embeds serde `Value::get(key)`: field lookup on an object, `none` on
every other JSON value. -/
def Json.get (j : Json) (key : String) : Option Json :=
  match j with
  | .obj fields => (fields.find? (fun p => p.1 == key)).map (fun p => p.2)
  | _ => none

/-- Embeds serde `Value::as_str`. -/
def Json.as_str : Json → Option String
  | .str s => some s
  | _ => none

/-- Embeds `validate_post_content` (lib.rs) as a function of the parse
result of the body (`none` when the body is not valid JSON): the `content`
field is extracted and must be a JSON string. -/
def validate_post_content (parsed : Option Json) : Option String :=
  match parsed with
  | some json => (json.get "content").bind Json.as_str
  | none => none

/-- Embeds an incoming HTTP request as `handle` (lib.rs) reads it: method,
path, headers and raw body bytes (the body itself stays abstract; its JSON
parse result is a separate parameter of `handle`). -/
structure RequestData where
  method : String
  path : String
  headers : List (String × String)
  body : List Nat

/-- Embeds the request `handle` forwards upstream. -/
structure ForwardedRequest where
  method : String
  uri : String
  headers : List (String × String)
  body : List Nat
deriving DecidableEq, Repr

/-- Embeds the process environment read by the filter: the optional
`FORBIDDEN_WORDS` denylist and the `BORD_TARGET` upstream address. -/
structure Env where
  forbidden_words : Option String
  bord_target : String

/-- Embeds the moderation-scope test of `handle` (lib.rs): POST with a path
starting `/posts`, or PUT with a path starting `/posts/`. -/
def inModerationScope (method path : String) : Bool :=
  (method == "POST" && rustStartsWith path "/posts") ||
  (method == "PUT" && rustStartsWith path "/posts/")

/-- Embeds the forwarding tail of `handle` (lib.rs): the upstream URL is
`BORD_TARGET ++ path`, every incoming header is copied, and the single
`x-origin: wasm-filter` header is appended; method and body are reused. -/
def forwardedRequest (target : String) (req : RequestData) : ForwardedRequest :=
  { method := req.method
    uri := target ++ req.path
    headers := req.headers ++ [("x-origin", "wasm-filter")]
    body := req.body }

/-- Embeds the observable outcome of `handle`: a 422
content-policy-violation response with the given message, or the request
forwarded upstream. -/
inductive HandleResult where
  | blocked (message : String)
  | forwarded (req : ForwardedRequest)
deriving DecidableEq, Repr

/-- Instrumentation of one run of `handle`: whether the forbidden-word gate
ran, whether each sentiment-gate path was invoked, and whether the
soft-flag log line (`sentiment_score < threshold`, non-blocking) fired. -/
structure ModerationTrace where
  forbiddenChecked : Bool
  llmInvoked : Bool
  tractInvoked : Bool
  softFlagged : Bool
deriving DecidableEq, Repr

/-- Embeds `handle` (lib.rs).  The external effects are parameters: `llm`
is the outcome of the remote LLM exchange, `tract` the result of the local
model run, `parsedBody` the serde parse of the request body.  The returned
trace records which gates were invoked on the taken path. -/
def handle (config : Config) (env : Env) (llm : LlmOutcome)
    (tract : Except String ℚ) (req : RequestData) (parsedBody : Option Json) :
    HandleResult × ModerationTrace :=
  let fwd := HandleResult.forwarded (forwardedRequest env.bord_target req)
  if inModerationScope req.method req.path then
    match validate_post_content parsedBody with
    | some content =>
      match contains_forbidden_content env.forbidden_words content with
      | some error_msg =>
        (.blocked error_msg,
         { forbiddenChecked := true, llmInvoked := false,
           tractInvoked := false, softFlagged := false })
      | none =>
        if config.enable_llm then
          match classify_with_llm llm with
          | .ok c =>
            if c.is_hate_speech then
              (.blocked "Content contains hate speech",
               { forbiddenChecked := true, llmInvoked := true,
                 tractInvoked := false, softFlagged := false })
            else
              (fwd,
               { forbiddenChecked := true, llmInvoked := true,
                 tractInvoked := false,
                 softFlagged :=
                   decide (c.sentiment_score <
                     config.policy.sentiment_score_threshold) })
          | .error _ =>
            (fwd,
             { forbiddenChecked := true, llmInvoked := true,
               tractInvoked := false, softFlagged := false })
        else if config.enable_tract then
          match classify_with_tract tract with
          | .ok c =>
            if c.is_hate_speech then
              (.blocked "Content sentiment too negative",
               { forbiddenChecked := true, llmInvoked := false,
                 tractInvoked := true, softFlagged := false })
            else
              (fwd,
               { forbiddenChecked := true, llmInvoked := false,
                 tractInvoked := true,
                 softFlagged :=
                   decide (c.sentiment_score <
                     config.policy.sentiment_score_threshold) })
          | .error _ =>
            (fwd,
             { forbiddenChecked := true, llmInvoked := false,
               tractInvoked := true, softFlagged := false })
        else
          (fwd,
           { forbiddenChecked := true, llmInvoked := false,
             tractInvoked := false, softFlagged := false })
    | none =>
      (fwd,
       { forbiddenChecked := false, llmInvoked := false,
         tractInvoked := false, softFlagged := false })
  else
    (fwd,
     { forbiddenChecked := false, llmInvoked := false,
       tractInvoked := false, softFlagged := false })

/-- Embeds the classification the sentiment gate of `handle` acts on, when
one is produced at all: the LLM path has priority, the tract path runs only
when `enable_llm` is false, and a path whose classifier returns an error
produces no classification. -/
def sentimentGateResult (config : Config) (llm : LlmOutcome)
    (tract : Except String ℚ) : Option ContentClassification :=
  if config.enable_llm then (classify_with_llm llm).toOption
  else if config.enable_tract then (classify_with_tract tract).toOption
  else none

/-! ### Sample data used by the concrete witness instantiations -/

/-- A small concrete vocabulary for witness evaluation. -/
def sampleVocab : Tokenizer :=
  ⟨[("[CLS]", 101), ("[SEP]", 102), ("[PAD]", 0), ("[UNK]", 100),
    ("hello", 7), ("world", 8), (",", 1010)]⟩

/-- A concrete model-run stub returning a fixed neutral score. -/
def sampleRun : List Int → List Int → Except String ℚ :=
  fun _ _ => Except.ok (mkRat 1 2)

/-- A concrete LLM sub-configuration for witnesses. -/
def sampleLlmConfig : LlmConfig :=
  ⟨"http://llm.local:11434", "llama3", mkRat 7 10⟩

/-- A concrete prompt sub-configuration for witnesses. -/
def samplePromptConfig : PromptConfig :=
  ⟨"Classify the sentiment of the following text"⟩

/-- A concrete configuration with only the local tract path enabled and a
soft-flag threshold of 0.4. -/
def tractConfig : Config :=
  ⟨false, true, sampleLlmConfig, samplePromptConfig, ⟨mkRat 2 5⟩⟩

/-- A concrete configuration with both paths enabled; the LLM path must win. -/
def bothConfig : Config :=
  ⟨true, true, sampleLlmConfig, samplePromptConfig, ⟨mkRat 2 5⟩⟩

/-- A concrete configuration with both paths disabled. -/
def offConfig : Config :=
  ⟨false, false, sampleLlmConfig, samplePromptConfig, ⟨mkRat 2 5⟩⟩

/-- A concrete in-scope request for witnesses. -/
def sampleReq : RequestData :=
  ⟨"POST", "/posts", [("content-type", "application/json")], [123, 125]⟩

/-- A concrete environment with no denylist configured. -/
def cleanEnv : Env := ⟨none, "http://bord.internal"⟩

/-- A concrete environment with the denylist `spam, scam`. -/
def spamEnv : Env := ⟨some "spam, scam", "http://bord.internal"⟩

/-- A parsed JSON body whose `content` field is the given string. -/
def sampleBody (content : String) : Option Json :=
  some (Json.obj [("content", Json.str content)])

/-! ### Theorems -/

/-- C5: for every input string (including the empty string and strings
tokenizing to more than 128 tokens), `Tokenizer.tokenize` returns exactly
128 token ids: right-padded with the pad id (`[PAD]`, or 0 if absent) when
the raw token list is shorter, right-truncated when it is longer. -/
theorem tokenize_fixed_length (t : Tokenizer) (text : String) :
    (t.tokenize text).length = 128 ∧
    ((t.rawTokens text).length ≤ 128 →
      t.tokenize text =
        t.rawTokens text ++
          List.replicate (128 - (t.rawTokens text).length) t.padId) ∧
    (128 ≤ (t.rawTokens text).length →
      t.tokenize text = (t.rawTokens text).take 128) := by
  unfold Tokenizer.tokenize
  refine ⟨?_, ?_, ?_⟩
  · simp only [List.length_take, List.length_append, List.length_replicate]
    omega
  · intro h
    apply List.take_of_length_le
    simp only [List.length_append, List.length_replicate]
    omega
  · intro h
    simp [Nat.sub_eq_zero_of_le h]

/-- C5 witness: the sample vocabulary tokenizes a concrete string to exactly
128 ids. -/
theorem tokenize_fixed_length_witness :
    (sampleVocab.tokenize "hello, world").length = 128 :=
  (tokenize_fixed_length sampleVocab "hello, world").1

/-- C6: the attention mask derived in `classify_sentiment` has the same
length as the token sequence, carries `if id = 0 then 0 else 1` pointwise,
and an entry is 0 exactly where the token id is the literal 0 (not the
resolved pad id). -/
theorem attention_mask_zero_iff (token_ids : List Int) :
    (attention_mask token_ids).length = token_ids.length ∧
    (∀ i : Nat, (attention_mask token_ids).get? i =
      (token_ids.get? i).map (fun id => if id = 0 then 0 else 1)) ∧
    (∀ i : Nat,
      ((attention_mask token_ids).get? i = some 0 ↔ token_ids.get? i = some 0)) := by
  refine ⟨by simp [attention_mask], fun i => by simp [attention_mask], fun i => ?_⟩
  simp only [attention_mask, List.get?_map]
  cases h : token_ids.get? i with
  | none => simp
  | some a =>
    by_cases ha : a = 0 <;> simp [ha]

/-- C3: on the local-model path, a successfully computed sentiment score
`s` yields a classification whose hate flag is true exactly when
`s < 0.3` (`mkRat 3 10`), a fixed cutoff: `classify_with_tract` reads no
configuration, so the cutoff cannot depend on the configurable
`sentiment_score_threshold`. -/
theorem tract_hate_flag_fixed_cutoff (s : ℚ) (c : ContentClassification)
    (h : classify_with_tract (Except.ok s) = Except.ok c) :
    (c.is_hate_speech = true ↔ s < mkRat 3 10) ∧
    c.sentiment_score = s ∧ c.reasoning = "tract_inference" := by
  simp only [classify_with_tract, Except.ok.injEq] at h
  subst h
  simp

/-- C3 witness: at the concrete score 0.1 the hate flag is set and the
cutoff comparison holds. -/
theorem tract_hate_flag_fixed_cutoff_witness :
    (({ sentiment_score := mkRat 1 10, is_hate_speech := true,
        reasoning := "tract_inference" } : ContentClassification).is_hate_speech
        = true ↔ mkRat 1 10 < mkRat 3 10) :=
  (tract_hate_flag_fixed_cutoff (mkRat 1 10)
    { sentiment_score := mkRat 1 10, is_hate_speech := true,
      reasoning := "tract_inference" } (by rfl)).1

/-- C8 counterexample: the graph parse is not performed at most once per
process — two calls to `classify_sentiment` from a fresh process state
(empty vocabulary cache, zero parses) leave the parse count above one. -/
theorem model_parse_once_counterexample :
    ¬ ((classify_sentiment sampleVocab sampleRun "hello"
        (classify_sentiment sampleVocab sampleRun "hello"
          { vocabCache := none, parseCount := 0 }).2).2).parseCount ≤ 1 := by
  decide

/-- C8 (amended): the embedded ONNX graph is parsed inside
`classify_sentiment` on every call — the parse count grows by exactly one
per call whatever the process state, so the parse result is never cached or
reused across calls. -/
theorem model_graph_parsed_every_call (v : Tokenizer)
    (run : List Int → List Int → Except String ℚ)
    (text : String) (s : ProcessState) :
    (classify_sentiment v run text s).2.parseCount = s.parseCount + 1 := by
  rcases s with ⟨vc, pc⟩
  cases vc <;> rfl

/-- C1: when the local inference path fails, `classify_with_tract` returns
an `Ok` classification with sentiment score exactly 0.5, hate flag false
and the fallback reasoning `tract_error`, and `handle` forwards the request
— the failure is never surfaced as an error or a block (provided the
request reaches the tract path, i.e. the LLM path is off and the
forbidden-word gate does not fire). -/
theorem tract_failure_fails_open (config : Config) (env : Env) (llm : LlmOutcome)
    (err : String) (req : RequestData) (parsedBody : Option Json)
    (hllm : config.enable_llm = false)
    (hforb : ∀ content, validate_post_content parsedBody = some content →
      contains_forbidden_content env.forbidden_words content = none) :
    classify_with_tract (Except.error err) =
      Except.ok { sentiment_score := mkRat 1 2, is_hate_speech := false,
                  reasoning := "tract_error" } ∧
    (handle config env llm (Except.error err) req parsedBody).1 =
      HandleResult.forwarded (forwardedRequest env.bord_target req) := by
  refine ⟨rfl, ?_⟩
  unfold handle
  split
  · cases hv : validate_post_content parsedBody with
    | none => simp [hv]
    | some content =>
      by_cases ht : config.enable_tract <;>
        simp [hv, hforb content hv, hllm, ht, classify_with_tract]
  · simp

/-- C1 witness: a concrete inference failure yields the neutral
classification and a forwarded request. -/
theorem tract_failure_fails_open_witness :
    classify_with_tract (Except.error "model parse failed") =
      Except.ok { sentiment_score := mkRat 1 2, is_hate_speech := false,
                  reasoning := "tract_error" } ∧
    (handle tractConfig cleanEnv (LlmOutcome.sendFailed "down")
      (Except.error "model parse failed") sampleReq (sampleBody "hello world")).1 =
      HandleResult.forwarded (forwardedRequest cleanEnv.bord_target sampleReq) :=
  tract_failure_fails_open tractConfig cleanEnv (LlmOutcome.sendFailed "down")
    "model parse failed" sampleReq (sampleBody "hello world") rfl
    (fun _ _ => rfl)

/-- C2: whenever the sentiment gate produces a classification, `handle`
blocks exactly when its hate flag is true; with the flag false the request
is forwarded even when the score is below the configured threshold — the
threshold comparison only drives the soft-flag log line. -/
theorem sentiment_gate_blocks_iff_hate (config : Config) (env : Env)
    (llm : LlmOutcome) (tract : Except String ℚ) (req : RequestData)
    (parsedBody : Option Json) (content : String) (c : ContentClassification)
    (hscope : inModerationScope req.method req.path = true)
    (hvalid : validate_post_content parsedBody = some content)
    (hforb : contains_forbidden_content env.forbidden_words content = none)
    (hclass : sentimentGateResult config llm tract = some c) :
    ((∃ msg, (handle config env llm tract req parsedBody).1 =
        HandleResult.blocked msg) ↔ c.is_hate_speech = true) ∧
    (c.is_hate_speech = false →
      (handle config env llm tract req parsedBody).1 =
        HandleResult.forwarded (forwardedRequest env.bord_target req) ∧
      ((handle config env llm tract req parsedBody).2.softFlagged = true ↔
        c.sentiment_score < config.policy.sentiment_score_threshold)) := by
  unfold handle
  by_cases hl : config.enable_llm
  · cases hc : classify_with_llm llm with
    | error e => simp [sentimentGateResult, hl, hc, Except.toOption] at hclass
    | ok c2 =>
      simp [sentimentGateResult, hl, hc, Except.toOption] at hclass
      subst hclass
      cases hhate : c2.is_hate_speech <;>
        simp [hscope, hvalid, hforb, hl, hc, hhate]
  · by_cases ht : config.enable_tract
    · cases hc : classify_with_tract tract with
      | error e => simp [sentimentGateResult, hl, ht, hc, Except.toOption] at hclass
      | ok c2 =>
        simp [sentimentGateResult, hl, ht, hc, Except.toOption] at hclass
        subst hclass
        cases hhate : c2.is_hate_speech <;>
          simp [hscope, hvalid, hforb, hl, ht, hc, hhate]
    · simp [sentimentGateResult, hl, ht] at hclass

/-- C2 witness: at a concrete hate-flagged classification (tract score 0.1)
the request is blocked. -/
theorem sentiment_gate_blocks_iff_hate_witness :
    ((∃ msg, (handle tractConfig cleanEnv (LlmOutcome.sendFailed "down")
        (Except.ok (mkRat 1 10)) sampleReq (sampleBody "bad vibes")).1 =
      HandleResult.blocked msg) ↔
      ({ sentiment_score := mkRat 1 10, is_hate_speech := true,
         reasoning := "tract_inference" } :
         ContentClassification).is_hate_speech = true) :=
  (sentiment_gate_blocks_iff_hate tractConfig cleanEnv
    (LlmOutcome.sendFailed "down") (Except.ok (mkRat 1 10)) sampleReq
    (sampleBody "bad vibes") "bad vibes"
    { sentiment_score := mkRat 1 10, is_hate_speech := true,
      reasoning := "tract_inference" }
    (by decide) (by decide) rfl rfl).1

/-- Helper for C4: if some entry of the denylist is non-empty after
trimming and lower-casing and occurs in the lower-cased content, the scan
of `contains_forbidden_content` returns the fixed spam message. -/
theorem findForbidden_of_mem (content : String) (l : List String) (entry : String)
    (hmem : entry ∈ l)
    (hne : (rustToLowerChars (rustTrimChars entry.data)).isEmpty = false)
    (hsub : rustContains (rustToLowerChars content.data)
      (rustToLowerChars (rustTrimChars entry.data)) = true) :
    findForbidden content l = some spamMessage := by
  induction l with
  | nil => cases hmem
  | cons w rest ih =>
    unfold findForbidden
    by_cases hw : (!(rustToLowerChars (rustTrimChars w.data)).isEmpty &&
        rustContains (rustToLowerChars content.data)
          (rustToLowerChars (rustTrimChars w.data))) = true
    · simp only [hw, if_true]
    · simp only [hw, if_false, Bool.false_eq_true]
      rcases List.mem_cons.mp hmem with heq | hmem2
      · subst heq
        exact absurd (by simp [hne, hsub]) hw
      · exact ih hmem2

/-- C4: when the denylist is configured and one of its comma-separated
entries, compared case-insensitively, occurs in the content, `handle`
blocks immediately with the fixed spam message and neither sentiment-gate
path is ever invoked. -/
theorem forbidden_word_gate_blocks (config : Config) (env : Env)
    (llm : LlmOutcome) (tract : Except String ℚ) (req : RequestData)
    (parsedBody : Option Json) (content words entry : String)
    (hscope : inModerationScope req.method req.path = true)
    (hvalid : validate_post_content parsedBody = some content)
    (henv : env.forbidden_words = some words)
    (hmem : entry ∈ (splitOnChar ',' words.data).map String.mk)
    (hne : (rustToLowerChars (rustTrimChars entry.data)).isEmpty = false)
    (hsub : rustContains (rustToLowerChars content.data)
      (rustToLowerChars (rustTrimChars entry.data)) = true) :
    contains_forbidden_content env.forbidden_words content = some spamMessage ∧
    (handle config env llm tract req parsedBody).1 =
      HandleResult.blocked spamMessage ∧
    (handle config env llm tract req parsedBody).2.llmInvoked = false ∧
    (handle config env llm tract req parsedBody).2.tractInvoked = false := by
  have hcf : contains_forbidden_content env.forbidden_words content =
      some spamMessage := by
    rw [henv]
    unfold contains_forbidden_content
    exact findForbidden_of_mem content _ entry hmem hne hsub
  refine ⟨hcf, ?_⟩
  unfold handle
  simp [hscope, hvalid, hcf]

/-- C4 witness: the denylist `spam, scam` blocks the content
`this is SPAM ok` via the entry `spam`, with both model paths uninvoked. -/
theorem forbidden_word_gate_blocks_witness :
    contains_forbidden_content spamEnv.forbidden_words "this is SPAM ok" =
      some spamMessage ∧
    (handle tractConfig spamEnv (LlmOutcome.sendFailed "down")
      (Except.ok (mkRat 1 2)) sampleReq (sampleBody "this is SPAM ok")).1 =
      HandleResult.blocked spamMessage ∧
    (handle tractConfig spamEnv (LlmOutcome.sendFailed "down")
      (Except.ok (mkRat 1 2)) sampleReq
      (sampleBody "this is SPAM ok")).2.llmInvoked = false ∧
    (handle tractConfig spamEnv (LlmOutcome.sendFailed "down")
      (Except.ok (mkRat 1 2)) sampleReq
      (sampleBody "this is SPAM ok")).2.tractInvoked = false :=
  forbidden_word_gate_blocks tractConfig spamEnv (LlmOutcome.sendFailed "down")
    (Except.ok (mkRat 1 2)) sampleReq (sampleBody "this is SPAM ok")
    "this is SPAM ok" "spam, scam" "spam"
    (by decide) (by decide) rfl (by decide) (by decide) (by decide)

/-- C9: on an in-scope request whose body is not valid JSON, lacks a
`content` field, or whose `content` field is not a string, no moderation of
any kind runs (the trace is all-false) and the request is forwarded with
only the `x-origin` header added. -/
theorem invalid_body_skips_moderation (config : Config) (env : Env)
    (llm : LlmOutcome) (tract : Except String ℚ) (req : RequestData)
    (parsedBody : Option Json)
    (hscope : inModerationScope req.method req.path = true)
    (hbad : parsedBody = none ∨
      ∃ j, parsedBody = some j ∧
        (j.get "content" = none ∨
         ∃ v, j.get "content" = some v ∧ v.as_str = none)) :
    validate_post_content parsedBody = none ∧
    (handle config env llm tract req parsedBody).1 =
      HandleResult.forwarded (forwardedRequest env.bord_target req) ∧
    (handle config env llm tract req parsedBody).2 =
      { forbiddenChecked := false, llmInvoked := false,
        tractInvoked := false, softFlagged := false } ∧
    forwardedRequest env.bord_target req =
      { method := req.method, uri := env.bord_target ++ req.path,
        headers := req.headers ++ [("x-origin", "wasm-filter")],
        body := req.body } := by
  have hv : validate_post_content parsedBody = none := by
    rcases hbad with h | ⟨j, hj, hget | ⟨v, hget, hstr⟩⟩
    · rw [h]; rfl
    · rw [hj]; simp [validate_post_content, hget]
    · rw [hj]; simp [validate_post_content, hget, hstr]
  refine ⟨hv, ?_, ?_, rfl⟩
  · unfold handle; simp [hscope, hv]
  · unfold handle; simp [hscope, hv]

/-- C9 witness: a body whose `content` field is the number 3 is forwarded
without any moderation. -/
theorem invalid_body_skips_moderation_witness :
    validate_post_content (some (Json.obj [("content", Json.num 3)])) = none ∧
    (handle tractConfig cleanEnv (LlmOutcome.sendFailed "down")
      (Except.ok (mkRat 1 2)) sampleReq
      (some (Json.obj [("content", Json.num 3)]))).1 =
      HandleResult.forwarded (forwardedRequest cleanEnv.bord_target sampleReq) ∧
    (handle tractConfig cleanEnv (LlmOutcome.sendFailed "down")
      (Except.ok (mkRat 1 2)) sampleReq
      (some (Json.obj [("content", Json.num 3)]))).2 =
      { forbiddenChecked := false, llmInvoked := false,
        tractInvoked := false, softFlagged := false } ∧
    forwardedRequest cleanEnv.bord_target sampleReq =
      { method := sampleReq.method,
        uri := cleanEnv.bord_target ++ sampleReq.path,
        headers := sampleReq.headers ++ [("x-origin", "wasm-filter")],
        body := sampleReq.body } :=
  invalid_body_skips_moderation tractConfig cleanEnv (LlmOutcome.sendFailed "down")
    (Except.ok (mkRat 1 2)) sampleReq (some (Json.obj [("content", Json.num 3)]))
    (by decide)
    (Or.inr ⟨Json.obj [("content", Json.num 3)], rfl,
      Or.inr ⟨Json.num 3, rfl, rfl⟩⟩)

/-- C10: the two sentiment-gate paths are mutually exclusive with the LLM
path taking precedence — when `enable_llm` is true the tract path is never
invoked (whatever `enable_tract` is) — and when both flags are false every
content passing the forbidden-word gate is forwarded. -/
theorem gate_exclusivity (config : Config) (env : Env) (llm : LlmOutcome)
    (tract : Except String ℚ) (req : RequestData) (parsedBody : Option Json) :
    (config.enable_llm = true →
      (handle config env llm tract req parsedBody).2.tractInvoked = false) ∧
    (config.enable_llm = false → config.enable_tract = false →
      (handle config env llm tract req parsedBody).2.llmInvoked = false ∧
      (handle config env llm tract req parsedBody).2.tractInvoked = false ∧
      (∀ content, validate_post_content parsedBody = some content →
        contains_forbidden_content env.forbidden_words content = none →
        (handle config env llm tract req parsedBody).1 =
          HandleResult.forwarded (forwardedRequest env.bord_target req))) := by
  constructor
  · intro hl
    unfold handle
    split
    · cases hv : validate_post_content parsedBody with
      | none => simp [hv]
      | some content =>
        cases hf : contains_forbidden_content env.forbidden_words content with
        | some m => simp [hv, hf]
        | none =>
          cases hc : classify_with_llm llm with
          | error e => simp [hv, hf, hl, hc]
          | ok c =>
            cases hhate : c.is_hate_speech <;> simp [hv, hf, hl, hc, hhate]
    · simp
  · intro hl ht
    refine ⟨?_, ?_, fun content hv hf => ?_⟩
    · unfold handle
      split
      · cases hv : validate_post_content parsedBody with
        | none => simp [hv]
        | some content =>
          cases hf : contains_forbidden_content env.forbidden_words content with
          | some m => simp [hv, hf]
          | none => simp [hv, hf, hl, ht]
      · simp
    · unfold handle
      split
      · cases hv : validate_post_content parsedBody with
        | none => simp [hv]
        | some content =>
          cases hf : contains_forbidden_content env.forbidden_words content with
          | some m => simp [hv, hf]
          | none => simp [hv, hf, hl, ht]
      · simp
    · unfold handle
      split
      · simp [hv, hf, hl, ht]
      · simp

/-- C10 witness: with both paths enabled the tract path stays uninvoked
even though the tract oracle would flag the content. -/
theorem gate_exclusivity_witness :
    (handle bothConfig cleanEnv (LlmOutcome.sendFailed "down")
      (Except.ok (mkRat 1 10)) sampleReq (sampleBody "hello")).2.tractInvoked
      = false :=
  (gate_exclusivity bothConfig cleanEnv (LlmOutcome.sendFailed "down")
    (Except.ok (mkRat 1 10)) sampleReq (sampleBody "hello")).1 rfl
